import Mathlib

/-!
Verification of `pynq/pmods/pmod_cable.py` (class `PMOD_Cable`).

The class wraps a single PMOD pin accessor with a cable-topology remap:
on `read`, the queried bit position inside the raw 8-bit port value is
swapped between the lower and the upper 4-pin group when the cable is
`straight`, and kept as-is when it is `loopback`.

Shallow embedding: the object state becomes a structure, methods become
pure functions, `raise ValueError` becomes an `Except` error value, and
the two external collaborators (the base-class constructor
`PMOD_IO.__init__` and the controller read `self.iop.read_cmd`) become
function parameters.
-/

/-- Python exceptions raised around `PMOD_Cable`:
`valueError` is the `ValueError` raised by `__init__` / `set_cable`
(the spec calls it `InvalidArgument`); `baseError` wraps any failure
coming out of the external base pin construction. -/
inductive PyErr where
  | valueError (msg : String)
  | baseError (msg : String)
deriving DecidableEq

/-- Modelled from the spec: the base pin state produced by the external
collaborator `PMOD_IO.__init__` (not under `src/`): a controller handle
(`iop`, opaque, modelled as `Nat`), a pin `index` and a `direction`
string. -/
structure PMOD_IO_Base where
  iop : Nat
  index : Nat
  direction : String
deriving DecidableEq

/-- The state of a `PMOD_Cable` object: the fields set by the base class
plus the `cable` attribute set by `PMOD_Cable.__init__`. -/
structure PMOD_Cable where
  iop : Nat
  index : Nat
  direction : String
  cable : String
deriving DecidableEq

deriving instance DecidableEq for Except

/-- `PMOD_Cable.__init__`: validates the cable token first
(`if cable not in ['straight', 'loopback']: raise ValueError(...)`),
then runs the base construction `super().__init__(pmod_id, index,
direction)` — an external collaborator, passed as `superInit`, whose own
failures surface as `baseError` — and finally stores `self.cable =
cable`. -/
def PMOD_Cable.init (superInit : Unit → Except String PMOD_IO_Base)
    (cable : String) : Except PyErr PMOD_Cable :=
  if cable ∈ (["straight", "loopback"] : List String) then
    match superInit () with
    | .error e => .error (.baseError e)
    | .ok b => .ok ⟨b.iop, b.index, b.direction, cable⟩
  else
    .error (.valueError "Cable can only be straight, or loopback.")

/-- `PMOD_Cable.set_cable`: validates the token with the same membership
test as `__init__` and, only on success, assigns `self.cable = cable`. -/
def PMOD_Cable.set_cable (s : PMOD_Cable) (cable : String) :
    Except PyErr PMOD_Cable :=
  if cable ∈ (["straight", "loopback"] : List String) then
    .ok ⟨s.iop, s.index, s.direction, cable⟩
  else
    .error (.valueError "Cable can only be straight, or loopback.")

/-- `PMOD_Cable.read`: fetches the raw port value through the external
controller (`self.iop.read_cmd(...)`, passed as `readPort`; its failure
propagates unchanged), then extracts one bit: for a straight cable at
`index < 4` the bit at `index + 4`, for a straight cable at `index ≥ 4`
the bit at `index - 4`, otherwise the bit at `index`. The method does
not assign to `self`, so the state is returned unmodified alongside the
bit. -/
def PMOD_Cable.read (s : PMOD_Cable) (readPort : Unit → Except String Nat) :
    Except String (Nat × PMOD_Cable) :=
  match readPort () with
  | .error e => .error e
  | .ok raw_value =>
    if s.cable = "straight" then
      if s.index < 4 then
        .ok ((raw_value >>> (s.index + 4)) &&& 1, s)
      else
        .ok ((raw_value >>> (s.index - 4)) &&& 1, s)
    else
      .ok ((raw_value >>> s.index) &&& 1, s)

/-- The index remap performed by the straight-cable branch of
`PMOD_Cable.read`: the lower 4-pin group and the upper 4-pin group are
swapped. -/
def straightTransform (index : Nat) : Nat :=
  if index < 4 then index + 4 else index - 4

/-- Spec-side definition of the effective bit position `p`, following
the spec text: if `cable = Straight` then `p = index + 4` when
`index < 4`, else `p = index - 4`; if `cable = Loopback` then
`p = index`. -/
def spec_effective_bit_position (cable : String) (index : Nat) : Nat :=
  if cable = "straight" then
    if index < 4 then index + 4 else index - 4
  else
    index

/-- Whether a construction / setter outcome is the `ValueError`
(`InvalidArgument`) raised for an unrecognized cable token. -/
def raisesInvalidArgument {α : Type} : Except PyErr α → Prop
  | .error (.valueError _) => True
  | _ => False

/-- The data-model invariant: the stored cable token is one of the two
recognized values. -/
def cableInv (s : PMOD_Cable) : Prop :=
  s.cable = "straight" ∨ s.cable = "loopback"

instance {α : Type} (r : Except PyErr α) : Decidable (raisesInvalidArgument r) := by
  unfold raisesInvalidArgument
  rcases r with e | v
  · rcases e with m | m
    · exact .isTrue trivial
    · exact .isFalse id
  · exact .isFalse id

instance (s : PMOD_Cable) : Decidable (cableInv s) := by
  unfold cableInv
  infer_instance

lemma read_ok_of_cableInv (s : PMOD_Cable) (raw : Nat) (h : cableInv s) :
    s.read (fun _ => .ok raw) =
      .ok ((raw >>> spec_effective_bit_position s.cable s.index) &&& 1, s) := by
  unfold PMOD_Cable.read spec_effective_bit_position
  rcases h with h | h <;> by_cases hi : s.index < 4 <;> simp [h, hi]

/-- C1: for either recognized cable value and any index in [0,7], `read`
on a successful raw port fetch returns exactly the bit
`(raw >>> p) &&& 1`, where `p` is the effective bit position the spec
describes (straight: `index + 4` when `index < 4`, else `index - 4`;
loopback: `index`). -/
theorem read_effective_bit_position (s : PMOD_Cable) (raw : Nat)
    (h1 : cableInv s) (_h2 : s.index ≤ 7) :
    s.read (fun _ => .ok raw) =
      .ok ((raw >>> spec_effective_bit_position s.cable s.index) &&& 1, s) :=
  read_ok_of_cableInv s raw h1

theorem read_effective_bit_position_witness :
    PMOD_Cable.read ⟨0, 2, "in", "straight"⟩ (fun _ => .ok 4) =
      .ok ((4 >>> spec_effective_bit_position "straight" 2) &&& 1,
        (⟨0, 2, "in", "straight"⟩ : PMOD_Cable)) :=
  read_effective_bit_position ⟨0, 2, "in", "straight"⟩ 4 (Or.inl rfl) (by decide)

/-- C2: construction raises `ValueError` (`InvalidArgument`) exactly
when the cable token is unrecognized, and in that case the result does
not depend on the base pin construction at all (it is not performed); a
recognized token never yields `ValueError` from the cable check. -/
theorem init_invalid_argument_iff
    (superInit : Unit → Except String PMOD_IO_Base) (cable : String) :
    (raisesInvalidArgument (PMOD_Cable.init superInit cable) ↔
      cable ∉ (["straight", "loopback"] : List String)) ∧
    (cable ∉ (["straight", "loopback"] : List String) →
      ∀ superInit2 : Unit → Except String PMOD_IO_Base,
        PMOD_Cable.init superInit cable = PMOD_Cable.init superInit2 cable) := by
  unfold PMOD_Cable.init
  by_cases hc : cable ∈ (["straight", "loopback"] : List String)
  · rw [if_pos hc]
    refine ⟨?_, fun hn => absurd hc hn⟩
    rcases h : superInit () with e | b <;> simp [raisesInvalidArgument, hc]
  · rw [if_neg hc]
    exact ⟨by simp [raisesInvalidArgument, hc],
      fun _ superInit2 => by rw [if_neg hc]⟩

theorem init_invalid_argument_iff_witness :
    raisesInvalidArgument
      (PMOD_Cable.init (fun _ => .ok ⟨0, 0, "in"⟩) "twisted") ∧
    PMOD_Cable.init (fun _ => .ok ⟨0, 0, "in"⟩) "twisted" =
      PMOD_Cable.init (fun _ => .error "base failed") "twisted" :=
  ⟨(init_invalid_argument_iff (fun _ => .ok ⟨0, 0, "in"⟩) "twisted").1.2
      (by decide),
   (init_invalid_argument_iff (fun _ => .ok ⟨0, 0, "in"⟩) "twisted").2
      (by decide) _⟩

/-- C3: `set_cable` with an unrecognized token raises `ValueError`
(`InvalidArgument`) and produces no updated state, so the previously
stored cable value is left unchanged. -/
theorem set_cable_invalid (s : PMOD_Cable) (cable : String)
    (h : cable ∉ (["straight", "loopback"] : List String)) :
    raisesInvalidArgument (s.set_cable cable) ∧
    ∀ s' : PMOD_Cable, s.set_cable cable ≠ .ok s' := by
  unfold PMOD_Cable.set_cable
  rw [if_neg h]
  exact ⟨trivial, fun s' hcontra => by cases hcontra⟩

theorem set_cable_invalid_witness :
    raisesInvalidArgument
      (PMOD_Cable.set_cable ⟨0, 1, "in", "straight"⟩ "crossover") ∧
    ∀ s' : PMOD_Cable,
      PMOD_Cable.set_cable ⟨0, 1, "in", "straight"⟩ "crossover" ≠ .ok s' :=
  set_cable_invalid ⟨0, 1, "in", "straight"⟩ "crossover" (by decide)

/-- C4: the invariant `cable ∈ \x7bstraight, loopback\x7d` is
established by every successful construction, preserved by every
successful `set_cable` (only a recognized token is stored), and `read`
returns the state unmodified. A failed `set_cable` produces no state at
all (see the C3 theorem), so the invariant cannot be broken by any
operation. -/
theorem cable_invariant_preserved :
    (∀ (superInit : Unit → Except String PMOD_IO_Base) (cable : String)
        (s : PMOD_Cable),
      PMOD_Cable.init superInit cable = .ok s → cableInv s) ∧
    (∀ (s : PMOD_Cable) (cable : String) (s' : PMOD_Cable),
      s.set_cable cable = .ok s' → cableInv s') ∧
    (∀ (s : PMOD_Cable) (readPort : Unit → Except String Nat)
        (b : Nat) (s' : PMOD_Cable),
      s.read readPort = .ok (b, s') → s' = s) := by
  refine ⟨?_, ?_, ?_⟩
  · intro superInit cable s h
    unfold PMOD_Cable.init at h
    by_cases hc : cable ∈ (["straight", "loopback"] : List String)
    · rw [if_pos hc] at h
      rcases hs : superInit () with e | b <;> rw [hs] at h
      · cases h
      · cases h
        simpa [cableInv] using hc
    · rw [if_neg hc] at h
      cases h
  · intro s cable s' h
    unfold PMOD_Cable.set_cable at h
    by_cases hc : cable ∈ (["straight", "loopback"] : List String)
    · rw [if_pos hc] at h
      cases h
      simpa [cableInv] using hc
    · rw [if_neg hc] at h
      cases h
  · intro s readPort b s' h
    unfold PMOD_Cable.read at h
    rcases hr : readPort () with e | raw <;> rw [hr] at h
    · cases h
    · by_cases hc : s.cable = "straight" <;>
        by_cases hi : s.index < 4 <;>
        simp [hc, hi] at h <;> exact h.2.symm

theorem cable_invariant_preserved_witness :
    cableInv ⟨0, 3, "in", "loopback"⟩ ∧
    cableInv ⟨0, 3, "in", "straight"⟩ ∧
    (⟨0, 3, "in", "loopback"⟩ : PMOD_Cable) = ⟨0, 3, "in", "loopback"⟩ :=
  ⟨cable_invariant_preserved.1 (fun _ => .ok ⟨0, 3, "in"⟩) "loopback" _
      (by decide),
   cable_invariant_preserved.2.1 ⟨0, 3, "in", "loopback"⟩ "straight" _
      (by decide),
   cable_invariant_preserved.2.2 ⟨0, 3, "in", "loopback"⟩ (fun _ => .ok 0) 0 _
      (by decide)⟩

/-- C5: the exhaustive bit-mapping table at raw value `0xF0`
(straight/index 0 reads bit 4 = 1, straight/index 4 reads bit 0 = 0,
loopback/index 0 reads bit 0 = 0, loopback/index 4 reads bit 4 = 1),
and the scenario (index 2, straight, raw `0b100`) reading bit 6 = 0. -/
theorem read_bit_mapping_table :
    PMOD_Cable.read ⟨0, 0, "in", "straight"⟩ (fun _ => .ok 0xF0) =
      .ok (1, ⟨0, 0, "in", "straight"⟩) ∧
    PMOD_Cable.read ⟨0, 4, "in", "straight"⟩ (fun _ => .ok 0xF0) =
      .ok (0, ⟨0, 4, "in", "straight"⟩) ∧
    PMOD_Cable.read ⟨0, 0, "in", "loopback"⟩ (fun _ => .ok 0xF0) =
      .ok (0, ⟨0, 0, "in", "loopback"⟩) ∧
    PMOD_Cable.read ⟨0, 4, "in", "loopback"⟩ (fun _ => .ok 0xF0) =
      .ok (1, ⟨0, 4, "in", "loopback"⟩) ∧
    PMOD_Cable.read ⟨0, 2, "in", "straight"⟩ (fun _ => .ok 0b100) =
      .ok (0, ⟨0, 2, "in", "straight"⟩) := by
  refine ⟨?_, ?_, ?_, ?_, ?_⟩ <;> decide

/-- C6: whatever the stored cable value (among the recognized ones) and
the index in [0,7], the value `read` extracts from a successfully
fetched raw port value is a single bit, 0 or 1. -/
theorem read_returns_bit (s : PMOD_Cable) (raw b : Nat) (s' : PMOD_Cable)
    (h1 : cableInv s) (_h2 : s.index ≤ 7)
    (h : s.read (fun _ => .ok raw) = .ok (b, s')) : b = 0 ∨ b = 1 := by
  rw [read_ok_of_cableInv s raw h1] at h
  simp only [Except.ok.injEq, Prod.mk.injEq] at h
  rcases h with ⟨hb, _⟩
  rw [← hb, Nat.and_one_is_mod]
  omega

theorem read_returns_bit_witness : (1 : Nat) = 0 ∨ (1 : Nat) = 1 :=
  read_returns_bit ⟨0, 0, "in", "straight"⟩ 0xF0 1 ⟨0, 0, "in", "straight"⟩
    (Or.inl rfl) (by decide) (by decide)

/-- C7: the straight-cable index remap used by `read` (add 4 below 4,
subtract 4 otherwise) is an involution on [0,7]: applying it twice gives
back the original index. -/
theorem straightTransform_involution (i : Nat) (h : i ≤ 7) :
    straightTransform (straightTransform i) = i := by
  unfold straightTransform
  split <;> split <;> omega

theorem straightTransform_involution_witness :
    straightTransform (straightTransform 2) = 2 :=
  straightTransform_involution 2 (by decide)

/-- C8: when the external controller read fails, `read` surfaces
exactly that error to its caller — nothing is caught, translated or
retried, and no modified pin state is produced. -/
theorem read_propagates_error (s : PMOD_Cable)
    (readPort : Unit → Except String Nat) (e : String)
    (h : readPort () = .error e) :
    s.read readPort = .error e := by
  unfold PMOD_Cable.read
  rw [h]

theorem read_propagates_error_witness :
    PMOD_Cable.read ⟨0, 0, "in", "straight"⟩
      (fun _ => .error "transport failure") = .error "transport failure" :=
  read_propagates_error ⟨0, 0, "in", "straight"⟩
    (fun _ => .error "transport failure") "transport failure" rfl

/-- C9: for a recognized token, `set_cable` returns a state whose cable
field is the new token and whose `iop` handle, `index` and `direction`
are exactly those of the input state; the operation involves no
controller access (it takes no port-read capability at all). -/
theorem set_cable_valid_frame (s : PMOD_Cable) (cable : String)
    (h : cable = "straight" ∨ cable = "loopback") :
    s.set_cable cable = .ok ⟨s.iop, s.index, s.direction, cable⟩ := by
  unfold PMOD_Cable.set_cable
  rcases h with h | h <;> subst h <;> rfl

theorem set_cable_valid_frame_witness :
    PMOD_Cable.set_cable ⟨7, 5, "out", "straight"⟩ "loopback" =
      .ok ⟨7, 5, "out", "loopback"⟩ :=
  set_cable_valid_frame ⟨7, 5, "out", "straight"⟩ "loopback" (Or.inr rfl)

/-- C10: for any raw port value and any index in [0,7], a straight-cable
read at `index` yields the same bit as a loopback-cable read at
`(index + 4) % 8`: the straight read is the loopback read composed with
the 4-pin group swap. -/
theorem straight_read_eq_loopback_swapped (iop i : Nat) (d : String)
    (raw : Nat) (h : i ≤ 7) :
    (PMOD_Cable.read ⟨iop, i, d, "straight"⟩ (fun _ => .ok raw)).map
        Prod.fst =
      (PMOD_Cable.read ⟨iop, (i + 4) % 8, d, "loopback"⟩
          (fun _ => .ok raw)).map Prod.fst := by
  interval_cases i <;> rfl

theorem straight_read_eq_loopback_swapped_witness :
    (PMOD_Cable.read ⟨0, 1, "in", "straight"⟩ (fun _ => .ok 0xF0)).map
        Prod.fst =
      (PMOD_Cable.read ⟨0, (1 + 4) % 8, "in", "loopback"⟩
          (fun _ => .ok 0xF0)).map Prod.fst :=
  straight_read_eq_loopback_swapped 0 1 "in" 0xF0 (by decide)
